import Mathlib

/-!
Verification of the Jamf API tool (jamf_api_tool.py, jamf_upload_lib/curl.py).

The development shallowly embeds the focal logic of the tool:
  * the bounded-retry delete orchestrator (`delete` in jamf_api_tool.py,
    together with `status_check` in curl.py),
  * the computer classification pass of `main` (staleness / OS-compliance
    bucketing, lines 216-277),
  * the slack health-score reporter (lines 306-314),
  * the policy name search (lines 348-365),
  * the category-mode URL encoding of category names (lines 443-472).

Machine dates are modelled as epoch seconds (Int); Python's
`timedelta.days` is floor division of the signed difference by 86400.
Python string comparison is code-point lexicographic comparison.
Exceptions that propagate out of the modelled code are represented with
`Except String`.
-/

/-! ## Delete orchestrator (jamf_api_tool.delete + curl.status_check) -/

/-- Outcome of a delete run, one constructor per distinct console message
of `curl.status_check` / the retry-exhaustion warning in `delete`. -/
inductive DeleteOutcome
  | Succeeded
  | Conflict
  | Unauthorized
  | ExhaustedRetries
deriving DecidableEq

/-- Embeds `curl.status_check`: it returns the string "break" exactly for
status codes 200, 201 (success message), 409 (conflict warning) and 401
(permissions error); for any other code it falls through and returns None.
We record which message was printed as the outcome. -/
def status_check (code : Nat) : Option DeleteOutcome :=
  if code = 200 ∨ code = 201 then some DeleteOutcome.Succeeded
  else if code = 409 then some DeleteOutcome.Conflict
  else if code = 401 then some DeleteOutcome.Unauthorized
  else none

/-- Embeds the `while True` loop of `jamf_api_tool.delete`.  `responses`
is the stream of HTTP status codes the server answers with, one per issued
DELETE request; `count` is the loop's counter (0 before the first
iteration).  Each iteration increments `count`, issues one request
(consuming one response), breaks when `status_check` says "break", and
otherwise breaks with the exhaustion warning when `count > 5`, else sleeps
and loops.  The result is `some (requestsIssued, outcome)` on termination
and `none` when the loop is still awaiting a further response. -/
def deleteLoop : List Nat → Nat → Option (Nat × DeleteOutcome)
  | [], _ => none
  | s :: rest, count =>
    let c := count + 1
    match status_check s with
    | some o => some (c, o)
    | none =>
      if c > 5 then some (c, DeleteOutcome.ExhaustedRetries)
      else deleteLoop rest c

/-- The delete orchestrator: run the loop from `count = 0`. -/
def delete (responses : List Nat) : Option (Nat × DeleteOutcome) :=
  deleteLoop responses 0

/-! ## Computer classification (jamf_api_tool.main, computers block) -/

/-- A fetched computer object, after field extraction.  `lastContact` is
`some t` (epoch seconds) when `datetime.strptime` succeeds on
`last_contact_time` and `none` when it raises ValueError. -/
structure RawComputer where
  id : Nat
  macos : String
  name : String
  dep : String
  lastContact : Option Int
deriving DecidableEq

/-- Python string `<`: code-point lexicographic comparison on the
character lists. -/
def pyStrLtChars : List Char → List Char → Bool
  | [], [] => false
  | [], _ :: _ => true
  | _ :: _, [] => false
  | a :: as, b :: bs =>
    if a.val < b.val then true
    else if b.val < a.val then false
    else pyStrLtChars as bs

/-- Python string `<` on `String`. -/
def pyStrLt (a b : String) : Bool := pyStrLtChars a.data b.data

/-- Python string `>=` on `String` (total order: `a >= b` iff not `a < b`). -/
def pyStrGe (a b : String) : Bool := ! pyStrLt a b

/-- `(now - seen).days` in Python: the `timedelta` is normalised with
`0 <= seconds < 86400`, so `.days` is floor division of the signed
difference in seconds by 86400. -/
def ageDays (now seen : Int) : Int := Int.fdiv (now - seen) 86400

/-- The four classification lists of the computers block:
`recent_computers`, `compliant`, `warning`, `old_computers`. -/
inductive Bucket
  | recent
  | compliant
  | warning
  | old
deriving DecidableEq

/-- Embeds the three `if` statements at lines 244-273 of the computers
block: the list of buckets the record is appended to, given the OS filter
(`args.os`), the computed day difference and the record's OS string.
 * `if (now - seen).days < 10 and not args.os:` append to recent;
 * `if (now - seen).days < 10 and args.os and (macos >= args.os):` append
   to compliant, `elif ... (macos < args.os):` append to warning;
 * `if (now - seen).days > 10:` append to old. -/
def bucketAppends (osFilter : Option String) (days : Int) (macos : String) :
    List Bucket :=
  (if days < 10 ∧ osFilter = none then [Bucket.recent] else []) ++
  (match osFilter with
   | none => []
   | some os =>
     if days < 10 ∧ pyStrGe macos os then [Bucket.compliant]
     else if days < 10 ∧ pyStrLt macos os then [Bucket.warning]
     else []) ++
  (if days > 10 then [Bucket.old] else [])

/-- The four accumulated lists, holding the ids of appended records. -/
structure Buckets where
  recent : List Nat
  compliant : List Nat
  warning : List Nat
  old : List Nat
deriving DecidableEq

def emptyBuckets : Buckets := ⟨[], [], [], []⟩

/-- Append a record id to the named list. -/
def addTo (bs : Buckets) (i : Nat) : Bucket → Buckets
  | Bucket.recent => { bs with recent := bs.recent ++ [i] }
  | Bucket.compliant => { bs with compliant := bs.compliant ++ [i] }
  | Bucket.warning => { bs with warning := bs.warning ++ [i] }
  | Bucket.old => { bs with old := bs.old ++ [i] }

/-- Process one computer object.  A `strptime` failure raises ValueError,
which no `except` clause in `main` catches (the handlers catch only
IndexError), so it propagates and aborts the run: modelled as
`Except.error`.  Otherwise the record is appended to the buckets selected
by `bucketAppends`. -/
def processComputer (now : Int) (osFilter : Option String) (bs : Buckets)
    (r : RawComputer) : Except String Buckets :=
  match r.lastContact with
  | none => Except.error "ValueError: time data does not match format"
  | some seen =>
    Except.ok ((bucketAppends osFilter (ageDays now seen) r.macos).foldl
      (fun acc b => addTo acc r.id b) bs)

/-- The `for x in computers` loop: process each fetched object in order,
an uncaught exception aborting the remainder of the run. -/
def processAllAux (now : Int) (osFilter : Option String) (bs : Buckets) :
    List RawComputer → Except String Buckets
  | [] => Except.ok bs
  | r :: rs =>
    match processComputer now osFilter bs r with
    | Except.error e => Except.error e
    | Except.ok bs2 => processAllAux now osFilter bs2 rs

/-- The whole classification pass, starting from empty lists. -/
def processAll (now : Int) (osFilter : Option String)
    (rs : List RawComputer) : Except String Buckets :=
  processAllAux now osFilter emptyBuckets rs

/-- Total number of classified entries across the four lists. -/
def bucketTotal (bs : Buckets) : Nat :=
  bs.recent.length + bs.compliant.length + bs.warning.length + bs.old.length

/-- Parsed record sitting exactly on the 10-day boundary. -/
def isBoundary (now : Int) (r : RawComputer) : Bool :=
  match r.lastContact with
  | some seen => ageDays now seen = 10
  | none => false

/-! ## Numeric dotted-version comparison (the comparison §4.1/§8 of the
spec mandate for the OS filter, stated for contrast with the string
comparison the code performs) -/

/-- Split a character list on the dot separator. -/
def splitOnDot : List Char → List (List Char)
  | [] => [[]]
  | c :: cs =>
    match splitOnDot cs with
    | [] => if c = '.' then [[], [c]] else [[c]]
    | h :: t => if c = '.' then [] :: h :: t else (c :: h) :: t

/-- Read a decimal component as a number. -/
def digitsToNat (l : List Char) : Nat :=
  l.foldl (fun acc c => acc * 10 + (c.toNat - '0'.toNat)) 0

/-- Numeric components of a dotted version string. -/
def versionComponents (s : String) : List Nat :=
  (splitOnDot s.data).map digitsToNat

/-- Lexicographic order on the numeric component lists. -/
def versionListLt : List Nat → List Nat → Bool
  | [], [] => false
  | [], _ :: _ => true
  | _ :: _, [] => false
  | a :: as, b :: bs =>
    if a < b then true
    else if b < a then false
    else versionListLt as bs

/-- Modelled from the spec: `os_version ≥ os_filter` under
"lexicographic-by-dotted-component comparison, not string comparison"
(§4.1 step 4); components compare as numbers. -/
def versionNumericGe (a b : String) : Bool :=
  ! versionListLt (versionComponents a) (versionComponents b)

/-! ## Slack health-score reporter (lines 306-314) -/

/-- Round `num / den` to the nearest integer, ties to even, matching the
rounding of Python's format specifier on an exactly representable value. -/
def roundHalfToEven (num den : Nat) : Nat :=
  let q := num / den
  let r := num % den
  if 2 * r < den then q
  else if den < 2 * r then q + 1
  else if q % 2 = 0 then q else q + 1

/-- `"{:.2%}".format(num / den)`: the ratio as a percentage with two
decimal places. -/
def formatPercent2 (num den : Nat) : String :=
  let scaled := roundHalfToEven (num * 10000) den
  let ip := scaled / 100
  let fp := scaled % 100
  Nat.repr ip ++ "." ++ (if fp < 10 then "0" ++ Nat.repr fp else Nat.repr fp)
    ++ "%"

/-- Embeds the slack block: when `args.slack` is set the code
unconditionally computes
`score = len(recent_computers) / (len(old_computers) + len(recent_computers))`;
with both lists empty the division raises ZeroDivisionError (modelled as
`Except.error`); when `args.slack` is not set no score is computed and no
score line is printed (`Except.ok none`). -/
def slackBlock (slack : Bool) (recentCount oldCount : Nat) :
    Except String (Option String) :=
  if slack then
    if oldCount + recentCount = 0 then
      Except.error "ZeroDivisionError: division by zero"
    else Except.ok (some (formatPercent2 recentCount (oldCount + recentCount)))
  else Except.ok none

/-! ## Policy name search (policies block, lines 334-368) -/

/-- A policy as listed by the API: id and name. -/
structure PolicyRecord where
  id : Nat
  name : String
deriving DecidableEq

/-- `q` occurs as a prefix of `s` (character lists). -/
def startsWithChars : List Char → List Char → Bool
  | [], _ => true
  | _ :: _, [] => false
  | a :: as, b :: bs => a = b && startsWithChars as bs

/-- Python's `x in name` on strings: `q` occurs as a contiguous substring
of `s`. -/
def isSubstrChars (q : List Char) : List Char → Bool
  | [] => startsWithChars q []
  | s@(_ :: rest) => startsWithChars q s || isSubstrChars q rest

/-- Embeds the nested search loops
`for x in query: for obj_item in obj: if x in obj_item["name"]: targets.append(...)`:
for each query string in order, every policy whose name contains it is
appended to `targets`. -/
def searchTargets : List String → List PolicyRecord → List PolicyRecord
  | [], _ => []
  | q :: qs, objs =>
    objs.filter (fun o => isSubstrChars q.data o.name.data)
      ++ searchTargets qs objs

/-- Number of occurrences of a policy in a list. -/
def countOcc (p : PolicyRecord) (l : List PolicyRecord) : Nat :=
  (l.filter (fun o => decide (o = p))).length

/-! ## Category mode (lines 443-472) -/

/-- Embeds `category_name.replace(" ", "%20")`: every occurrence of the
one-character needle `" "` is replaced by `"%20"`. -/
def replaceSpaces : List Char → List Char
  | [] => []
  | c :: cs =>
    if c = ' ' then '%' :: '2' :: '0' :: replaceSpaces cs
    else c :: replaceSpaces cs

/-- Modelled from the spec's words for C10: each space character replaced
by the literal string "%20", all other characters kept as they are. -/
def encodeSpacesSpec (l : List Char) : List Char :=
  (l.map (fun c => if c = ' ' then ['%', '2', '0'] else [c])).flatten

/-- What one iteration of the category loop does with a category name:
the (encoded) name it passes to `get_policies_in_category` and prints in
every report line, whether the lookup found items, and which item ids are
handed to `delete` when `--delete` is set. -/
structure CategoryResult where
  key : String
  found : Bool
  deletedIds : List Nat
deriving DecidableEq

/-- Embeds one iteration of `for category_name in categories` (lines
451-472): encode the name, look the encoded name up, report under the
encoded name, and delete each found item's id when requested. -/
def processCategory (db : String → List PolicyRecord) (del : Bool)
    (name : String) : CategoryResult :=
  let key := String.mk (replaceSpaces name.data)
  let obj := db key
  { key := key
    found := ! obj.isEmpty
    deletedIds := if del then obj.map (fun o => o.id) else [] }

/-- The whole category loop. -/
def processCategories (db : String → List PolicyRecord) (del : Bool)
    (names : List String) : List CategoryResult :=
  names.map (processCategory db del)

/-! ## Helper lemmas -/

theorem deleteLoop_nonterminal_prefix (pre : List Nat) (l : List Nat)
    (count : Nat) (hpre : ∀ s ∈ pre, status_check s = none)
    (hlen : count + pre.length ≤ 5) :
    deleteLoop (pre ++ l) count = deleteLoop l (count + pre.length) := by
  induction pre generalizing count with
  | nil => simp
  | cons s rest ih =>
    have hs : status_check s = none := hpre s (List.mem_cons_self s rest)
    have hlen' : count + 1 + rest.length ≤ 5 := by
      simp only [List.length_cons] at hlen
      omega
    simp only [List.cons_append, deleteLoop, hs, List.append_eq]
    rw [if_neg (by omega)]
    rw [ih (count + 1) (fun x hx => hpre x (List.mem_cons_of_mem s hx)) hlen']
    congr 1
    simp only [List.length_cons]
    omega

theorem bucketTotal_addTo (bs : Buckets) (i : Nat) (b : Bucket) :
    bucketTotal (addTo bs i b) = bucketTotal bs + 1 := by
  cases b <;> simp [addTo, bucketTotal] <;> omega

theorem bucketTotal_foldl (l : List Bucket) (bs : Buckets) (i : Nat) :
    bucketTotal (l.foldl (fun acc b => addTo acc i b) bs) =
      bucketTotal bs + l.length := by
  induction l generalizing bs with
  | nil => simp
  | cons b l ih => simp [List.foldl_cons, ih, bucketTotal_addTo]; omega

theorem bucketAppends_length (osFilter : Option String) (days : Int)
    (macos : String) :
    (bucketAppends osFilter days macos).length = if days = 10 then 0 else 1 := by
  rcases osFilter with _ | os
  · rcases lt_trichotomy days 10 with h | h | h
    · simp [bucketAppends, h, show ¬ (10:Int) < days from by omega,
        show days ≠ 10 from by omega]
    · subst h
      norm_num [bucketAppends]
    · simp [bucketAppends, h, show ¬ days < (10:Int) from by omega,
        show days ≠ 10 from by omega]
  · rcases lt_trichotomy days 10 with h | h | h
    · rcases hlt : pyStrLt macos os with _ | _
      · simp [bucketAppends, pyStrGe, h, hlt, show ¬ (10:Int) < days from by omega,
          show days ≠ 10 from by omega]
      · simp [bucketAppends, pyStrGe, h, hlt, show ¬ (10:Int) < days from by omega,
          show days ≠ 10 from by omega]
    · subst h
      norm_num [bucketAppends]
    · simp [bucketAppends, pyStrGe, h, show ¬ days < (10:Int) from by omega,
        show days ≠ 10 from by omega]

theorem processAllAux_total (now : Int) (osFilter : Option String)
    (rs : List RawComputer) (bs : Buckets)
    (h : ∀ r ∈ rs, r.lastContact ≠ none) :
    ∃ out, processAllAux now osFilter bs rs = Except.ok out ∧
      bucketTotal out =
        bucketTotal bs + (rs.filter (fun r => ! isBoundary now r)).length := by
  induction rs generalizing bs with
  | nil => exact ⟨bs, rfl, by simp⟩
  | cons r rs ih =>
    obtain ⟨seen, hseen⟩ : ∃ t, r.lastContact = some t := by
      rcases hr : r.lastContact with _ | t
      · exact absurd hr (h r (by simp))
      · exact ⟨t, rfl⟩
    obtain ⟨out, hout, htot⟩ :=
      ih ((bucketAppends osFilter (ageDays now seen) r.macos).foldl
        (fun acc b => addTo acc r.id b) bs) (fun x hx => h x (by simp [hx]))
    refine ⟨out, ?_, ?_⟩
    · simp only [processAllAux, processComputer, hseen]
      exact hout
    · rw [htot, bucketTotal_foldl, bucketAppends_length]
      simp only [List.filter_cons, isBoundary, hseen]
      by_cases hb : ageDays now seen = 10
      · simp [hb]
      · simp [hb]
        omega


theorem countOcc_cons (p a : PolicyRecord) (l : List PolicyRecord) :
    countOcc p (a :: l) = (if a = p then 1 else 0) + countOcc p l := by
  by_cases h : a = p <;> simp [countOcc, List.filter_cons, h]
  omega

theorem countOcc_append (p : PolicyRecord) (l1 l2 : List PolicyRecord) :
    countOcc p (l1 ++ l2) = countOcc p l1 + countOcc p l2 := by
  simp [countOcc, List.filter_append]

theorem countOcc_filter (p : PolicyRecord) (f : PolicyRecord → Bool)
    (l : List PolicyRecord) :
    countOcc p (l.filter f) = if f p then countOcc p l else 0 := by
  induction l with
  | nil => simp [countOcc]
  | cons a l ih =>
    rw [List.filter_cons]
    by_cases hf : f a
    · rw [if_pos hf, countOcc_cons, ih, countOcc_cons]
      by_cases hp : a = p
      · subst hp
        simp [hf]
      · simp [hp]
    · rw [if_neg hf, ih, countOcc_cons]
      by_cases hp : a = p
      · subst hp
        simp [hf]
      · simp [hp]

theorem replaceSpaces_eq_spec (l : List Char) :
    replaceSpaces l = encodeSpacesSpec l := by
  induction l with
  | nil => rfl
  | cons c cs ih =>
    by_cases h : c = ' ' <;>
      simp [replaceSpaces, encodeSpacesSpec, h, List.flatten] <;>
      simpa [encodeSpacesSpec] using ih

theorem no_space_in_encodeSpacesSpec (l : List Char) :
    ' ' ∉ encodeSpacesSpec l := by
  induction l with
  | nil => simp [encodeSpacesSpec]
  | cons c cs ih =>
    intro hmem
    rcases h : decide (c = ' ') with _ | _
    · simp only [encodeSpacesSpec, List.map_cons, List.flatten_cons,
        List.mem_append, decide_eq_false_iff_not.mp h, if_neg
          (decide_eq_false_iff_not.mp h)] at hmem
      rcases hmem with hm | hm
      · simp at hm
        exact (decide_eq_false_iff_not.mp h) hm.symm
      · exact ih hm
    · have hc : c = ' ' := of_decide_eq_true h
      simp only [encodeSpacesSpec, List.map_cons, List.flatten_cons,
        List.mem_append, if_pos hc] at hmem
      rcases hmem with hm | hm
      · simp at hm
      · exact ih hm

/-! ## Claim theorems -/

/-- Claim C1 counterexample: a record whose age is exactly the 10-day
threshold is not appended to the stale list (`old_computers`), contrary to
the claim that it is classified `Stale`. -/
theorem boundary_record_not_stale :
    Bucket.old ∉ bucketAppends none 10 "12.0" := by decide

/-- Claim C1 (amended): a record whose age in whole days equals the
10-day staleness threshold is never assigned to the Recent bucket, but it
is not assigned to the Stale bucket either: it is appended to no bucket at
all, with or without an OS filter. -/
theorem boundary_record_no_bucket (osFilter : Option String) (macos : String) :
    bucketAppends osFilter 10 macos = [] := by
  rcases osFilter with _ | os <;> norm_num [bucketAppends]

/-- Claim C2: with five non-terminal (500) responses the delete loop has
not terminated - it sleeps and issues a sixth DELETE request - and with a
sixth 500 response it terminates having issued six requests, printing the
exhaustion warning.  The claim's "exactly five requests, no sixth attempt"
is contradicted by the code. -/
theorem delete_six_requests_when_exhausted :
    delete (List.replicate 5 500) = none ∧
    delete (List.replicate 6 500) = some (6, DeleteOutcome.ExhaustedRetries) := by
  decide

/-- Claim C3: the code's OS-compliance comparison is Python string
comparison, not the numeric component-wise comparison the claim states:
`"10.9" >= "10.10"` evaluates true under the code's comparison (and false
under the numeric comparison the spec mandates), so a recent record with
OS 10.9 is classified compliant against filter 10.10. -/
theorem os_comparison_is_string_not_numeric :
    pyStrGe "10.9" "10.10" = true ∧
    versionNumericGe "10.9" "10.10" = false ∧
    bucketAppends (some "10.10") 0 "10.9" = [Bucket.compliant] := by
  decide

/-- Claim C4 counterexample: a run over a single parseable record whose
age is exactly 10 days (now = 864000s, last contact = 0s) completes with
all four buckets empty; the bucket counts sum to 0, not to
`total_records - unparsable_count = 1`. -/
theorem boundary_record_breaks_partition :
    processAll 864000 none [⟨1, "12.0", "n", "d", some 0⟩] =
      Except.ok emptyBuckets ∧
    bucketTotal emptyBuckets ≠ 1 := by
  exact ⟨rfl, by decide⟩

/-- Claim C4 (amended): buckets are mutually exclusive (each record is
appended to at most one bucket), but coverage fails at the boundary: a
parsed record is assigned to exactly one bucket iff its age differs from
10 days, so when every record parses the run completes and the bucket
counts sum to `total_records` minus the number of records whose age is
exactly 10 days (and a run containing an unparsable record aborts instead
of completing, see C6). -/
theorem classification_partition (now : Int) (osFilter : Option String)
    (rs : List RawComputer) (h : ∀ r ∈ rs, r.lastContact ≠ none) :
    (∀ d m, (bucketAppends osFilter d m).length ≤ 1) ∧
    ∃ out, processAll now osFilter rs = Except.ok out ∧
      bucketTotal out = (rs.filter (fun r => ! isBoundary now r)).length := by
  constructor
  · intro d m
    rw [bucketAppends_length]
    split <;> omega
  · obtain ⟨out, hout, htot⟩ := processAllAux_total now osFilter rs emptyBuckets h
    exact ⟨out, hout, by simpa [bucketTotal, emptyBuckets] using htot⟩

/-- Witness for `classification_partition` at a concrete one-record run. -/
theorem classification_partition_witness :
    (∀ d m, (bucketAppends none d m).length ≤ 1) ∧
    ∃ out, processAll 0 none [⟨1, "12.0", "n", "d", some 0⟩] = Except.ok out ∧
      bucketTotal out =
        (([⟨1, "12.0", "n", "d", some 0⟩] : List RawComputer).filter
          (fun r => ! isBoundary 0 r)).length :=
  classification_partition 0 none [⟨1, "12.0", "n", "d", some 0⟩] (by decide)

/-- Claim C5: a 409 response on any reachable attempt (any prefix of at
most five non-terminal responses) terminates the delete loop at once with
the conflict outcome and no further request: the request count is the
prefix length plus one; likewise 401 terminates with the permissions
outcome.  In particular a first-attempt 409 or 401 issues exactly one
request. -/
theorem delete_conflict_unauthorized_terminal (pre rest : List Nat)
    (hpre : ∀ s ∈ pre, status_check s = none) (hlen : pre.length ≤ 5) :
    delete (pre ++ 409 :: rest) =
      some (pre.length + 1, DeleteOutcome.Conflict) ∧
    delete (pre ++ 401 :: rest) =
      some (pre.length + 1, DeleteOutcome.Unauthorized) := by
  constructor <;>
  · rw [delete, deleteLoop_nonterminal_prefix pre _ 0 hpre (by omega)]
    simp [deleteLoop, status_check]

/-- Witness for `delete_conflict_unauthorized_terminal`: first-attempt
409 and 401, one request each. -/
theorem delete_conflict_unauthorized_terminal_witness :
    delete [409] = some (1, DeleteOutcome.Conflict) ∧
    delete [401] = some (1, DeleteOutcome.Unauthorized) :=
  delete_conflict_unauthorized_terminal [] [] (by decide) (by decide)

/-- Claim C6: a record whose `last_contact_time` fails to parse raises
ValueError, which no handler in the computers block catches (they catch
only IndexError), so the whole run aborts and the remaining records (here
record 2) are never processed - contrary to the claim that the record is
logged, dropped and processing continues. -/
theorem parse_failure_aborts_run :
    processAll 0 none
        [⟨1, "12.0", "n", "d", none⟩, ⟨2, "12.0", "n", "d", some 0⟩] =
      Except.error "ValueError: time data does not match format" := rfl

/-- Claim C7: with `--slack` set and both counts zero the code evaluates
`len(recent) / (len(old) + len(recent))` unguarded and raises
ZeroDivisionError - contrary to the claim that no division is attempted;
with recent=3, stale=1 the score line is "75.00%" as the claim states. -/
theorem health_score_zero_division :
    slackBlock true 0 0 = Except.error "ZeroDivisionError: division by zero" ∧
    slackBlock true 3 1 = Except.ok (some "75.00%") := ⟨rfl, rfl⟩

/-- Claim C8 counterexample: with policies `[{id 1, "Install Chrome"}]`
and queries `["Chrome", "Install"]` the search result contains the policy
twice - once per matching query - not exactly once as the claim states. -/
theorem search_result_duplicated :
    searchTargets ["Chrome", "Install"] [⟨1, "Install Chrome"⟩] =
      [⟨1, "Install Chrome"⟩, ⟨1, "Install Chrome"⟩] ∧
    countOcc ⟨1, "Install Chrome"⟩
        (searchTargets ["Chrome", "Install"] [⟨1, "Install Chrome"⟩]) = 2 := by
  decide

/-- Claim C8 (amended): the search returns, for each policy, one copy per
matching query: the multiplicity of a policy in the result equals the
number of query strings occurring in its name times its multiplicity in
the fetched list.  Membership is as the claim states (at least one
matching query), but a policy matching several queries appears once per
matching query, not once. -/
theorem searchTargets_multiplicity (qs : List String)
    (objs : List PolicyRecord) (p : PolicyRecord) :
    countOcc p (searchTargets qs objs) =
      (qs.filter (fun q => isSubstrChars q.data p.name.data)).length *
        countOcc p objs := by
  induction qs with
  | nil => simp [searchTargets, countOcc]
  | cons q qs ih =>
    rw [searchTargets, countOcc_append, ih, countOcc_filter, List.filter_cons]
    by_cases h : isSubstrChars q.data p.name.data
    · simp [h]
      ring
    · simp [h]

/-- Claim C9 counterexample: with now = 1728000s, a last contact 20 days
in the past gives age 20, but a last contact 20 days in the future gives
age -20 (the signed `timedelta.days`), not the non-negative 20 the claim
states - and the future record is classified Recent. -/
theorem future_contact_age_not_absolute :
    ageDays 1728000 0 = 20 ∧ ageDays 1728000 3456000 = -20 ∧
    bucketAppends none (ageDays 1728000 3456000) "12.0" = [Bucket.recent] := by
  decide

/-- Claim C9 (amended): the age used for classification is the signed
floor of `(now - last_contact)` in days, not an absolute difference: any
last-contact timestamp strictly in the future yields a negative age, and
(without an OS filter) the record is classified Recent. -/
theorem future_contact_negative_age (now seen : Int) (macos : String)
    (h : now < seen) :
    ageDays now seen < 0 ∧
    bucketAppends none (ageDays now seen) macos = [Bucket.recent] := by
  have h1 : ageDays now seen < 0 := by
    rw [ageDays, Int.fdiv_eq_ediv _ (by norm_num)]
    exact Int.ediv_neg' (by omega) (by norm_num)
  refine ⟨h1, ?_⟩
  simp [bucketAppends, show ageDays now seen < 10 from by omega,
    show ¬ (10:Int) < ageDays now seen from by omega]

/-- Witness for `future_contact_negative_age`: last contact one day in
the future. -/
theorem future_contact_negative_age_witness :
    ageDays 0 86400 < 0 ∧
    bucketAppends none (ageDays 0 86400) "12.0" = [Bucket.recent] :=
  future_contact_negative_age 0 86400 "12.0" (by decide)

/-- Claim C10: in category mode each supplied category name has every
space replaced by the literal "%20" before anything else happens: the key
used for the lookup (and printed in every report line) is exactly the
spec-worded encoding, contains no space, and when `--delete` is set the
deleted ids are those the lookup returns for the encoded name. -/
theorem category_name_urlencoded (db : String → List PolicyRecord)
    (del : Bool) (name : String) :
    (processCategory db del name).key = String.mk (encodeSpacesSpec name.data) ∧
    ' ' ∉ (processCategory db del name).key.data ∧
    (processCategory db del name).deletedIds =
      (if del then
        (db (String.mk (encodeSpacesSpec name.data))).map (fun o => o.id)
      else []) := by
  refine ⟨?_, ?_, ?_⟩
  · simp [processCategory, replaceSpaces_eq_spec]
  · simp [processCategory, replaceSpaces_eq_spec]
    exact no_space_in_encodeSpacesSpec name.data
  · simp [processCategory, replaceSpaces_eq_spec]
